import Mathlib

/-
  Shallow embedding of the ro-topt TOTP generator (src/main.rs), together with
  executable models of the library functions it calls: the base32 crate's
  `decode` (RFC 4648 inverse alphabet; note that the crate's decoder accepts
  padding characters in both padding modes, mapping them to the value 0), and
  totp_rs's `TOTP::new` / `generate_current` (HMAC-SHA1, RFC 6238), with SHA-1
  and HMAC implemented in full over byte lists.

  Modelling conventions:
  - Rust strings are modeled at the character level (`String` / `List Char`);
    for ASCII data the Rust byte length coincides with the character count, and
    `str::to_uppercase` agrees with ASCII uppercasing (all concrete inputs in
    this development are ASCII).  The raw-byte fallback encodes characters to
    UTF-8 explicitly.
  - Machine integers are `Nat` with explicit `% 256` / `% 2 ^ 32` where
    overflow matters.
  - `SystemTime::now()` reads are modeled as explicit `Nat` arguments; the
    recurring-tick handler, which can perform several reads in one message
    (one for the scan plus one inside each `generate_token` call of the second
    pass), takes a whole clock trace `Nat → Nat`, read i being the i-th
    `SystemTime::now()` of that message.  `generate_current`'s internal clock
    read is identified with the `now` already read by its caller
    `generate_token`, and its `SystemTimeError` (clock before epoch) is
    therefore unrepresentable.
  - `iced` Commands (the deferred clipboard-message clear) are not modeled as
    effects; the delayed `ClearMessage` simply arrives later as an ordinary
    message.  The clipboard collaborator's outcome is an explicit parameter of
    the copy message.
-/

set_option maxHeartbeats 1000000
set_option linter.unusedVariables false

/-- Modify the element at a given position of a list; no-op when the index is
out of range (model of an in-place update of `self.tabs[i]`). -/
def modifyNth (f : α → α) : Nat → List α → List α
  | _, [] => []
  | 0, a :: l => f a :: l
  | n + 1, a :: l => a :: modifyNth f n l

theorem modifyNth_length (f : α → α) : ∀ (n : Nat) (l : List α),
    (modifyNth f n l).length = l.length
  | n, [] => by cases n <;> rfl
  | 0, _ :: _ => rfl
  | n + 1, _ :: l => congrArg Nat.succ (modifyNth_length f n l)

theorem getD_modifyNth_self (f : α → α) (d : α) :
    ∀ (n : Nat) (l : List α), n < l.length →
      (modifyNth f n l).getD n d = f (l.getD n d)
  | _, [], h => absurd h (Nat.not_lt_zero _)
  | 0, _ :: _, _ => rfl
  | n + 1, _ :: l, h => getD_modifyNth_self f d n l (Nat.lt_of_succ_lt_succ h)

theorem getD_modifyNth_ne (f : α → α) (d : α) :
    ∀ (m n : Nat) (l : List α), m ≠ n →
      (modifyNth f n l).getD m d = l.getD m d
  | m, n, [], _ => by cases m <;> cases n <;> rfl
  | 0, 0, _ :: _, h => absurd rfl h
  | 0, n + 1, _ :: _, _ => rfl
  | m + 1, 0, _ :: _, _ => rfl
  | m + 1, n + 1, _ :: l, h =>
      getD_modifyNth_ne f d m n l (fun e => h (congrArg Nat.succ e))

/-- Fuel-indexed splitting of a list into chunks of `n` elements (model of
Rust's `slice::chunks`); the fuel is the list length, which suffices whenever
`n > 0`, the only way it is used. -/
def chunksOfAux (n : Nat) : Nat → List α → List (List α)
  | 0, _ => []
  | _, [] => []
  | fuel + 1, a :: l => (a :: l).take n :: chunksOfAux n fuel ((a :: l).drop n)

def chunksOf (n : Nat) (l : List α) : List (List α) :=
  chunksOfAux n l.length l

/-- Decimal digit characters of a natural number, most significant first
(model of Rust's `u64` `Display`). -/
def decDigits (n : Nat) : List Char :=
  if h : n < 10 then [Char.ofNat (48 + n)]
  else decDigits (n / 10) ++ [Char.ofNat (48 + n % 10)]
termination_by n
decreasing_by exact Nat.div_lt_self (by omega) (by omega)

def decimalString (n : Nat) : String :=
  String.mk (decDigits n)

theorem decDigits_ne_nil (n : Nat) : decDigits n ≠ [] := by
  unfold decDigits
  split
  · simp
  · simp

theorem decDigits_length_le : ∀ (d n : Nat), n < 10 ^ d →
    (decDigits n).length ≤ max 1 d := by
  intro d
  induction d with
  | zero =>
      intro n h
      have : n = 0 := by omega
      subst this
      simp [decDigits]
  | succ d ih =>
      intro n h
      unfold decDigits
      split
      · simp
      · rename_i h10
        have hdiv : n / 10 < 10 ^ d := by
          apply (Nat.div_lt_iff_lt_mul (by omega : 0 < 10)).mpr
          calc n < 10 ^ (d + 1) := h
            _ = 10 ^ d * 10 := by ring
        have := ih (n / 10) hdiv
        have hd1 : 1 ≤ d := by
          by_contra hd
          have : d = 0 := by omega
          subst this
          simp at h
          omega
        simp only [List.length_append, List.length_cons, List.length_nil]
        omega

/-! ## Model of the `base32` crate's `decode` (RFC 4648 alphabet)

The crate first rejects non-ASCII input, counts at most six trailing `=`
characters to fix the output length, then decodes 8-character chunks through
an inverse alphabet in which `A`..`Z` map to 0..25, `2`..`7` map to 26..31,
`=` maps to 0, and every other character is invalid.  The `padding` field of
the alphabet is not consulted by `decode` (it only matters for encoding), so
both call modes share the same decoding function. -/

/-- Rust's `u8::to_ascii_uppercase`. -/
def asciiUpper (c : Char) : Char :=
  if 'a' ≤ c ∧ c ≤ 'z' then Char.ofNat (c.toNat - 32) else c

/-- Inverse-alphabet lookup (after ASCII uppercasing), `RFC4648_INV_ALPHABET`. -/
def b32val (c : Char) : Option Nat :=
  let u := asciiUpper c
  if 'A' ≤ u ∧ u ≤ 'Z' then some (u.toNat - 'A'.toNat)
  else if '2' ≤ u ∧ u ≤ '7' then some (u.toNat - '2'.toNat + 26)
  else if u = '=' then some 0
  else none

/-- The five output bytes of one 8-value chunk; left shifts on `u8` wrap, hence
the explicit `% 256`. -/
def b32chunkBytes (buf : List Nat) : List Nat :=
  let g : Nat → Nat := fun i => buf.getD i 0
  [ ((g 0 <<< 3) % 256) ||| (g 1 >>> 2),
    ((g 1 <<< 6) % 256) ||| ((g 2 <<< 1) % 256) ||| (g 3 >>> 4),
    ((g 3 <<< 4) % 256) ||| (g 4 >>> 1),
    ((g 4 <<< 7) % 256) ||| ((g 5 <<< 2) % 256) ||| (g 6 >>> 3),
    ((g 6 <<< 5) % 256) ||| g 7 ]

/-- `base32::decode(Alphabet::RFC4648 { padding }, data)`.  The `padding`
argument is carried for call-site fidelity but, as in the crate, unused. -/
def base32decode (padding : Bool) (data : List Char) : Option (List Nat) :=
  if data.any (fun c => 128 ≤ c.toNat) then none
  else
    let trailing := min (data.reverse.takeWhile (fun c => c == '=')).length 6
    let outlen := (data.length - trailing) * 5 / 8
    match (chunksOf 8 data).mapM (fun chunk => chunk.mapM b32val) with
    | some bufs =>
        some ((bufs.map
          (fun vals => b32chunkBytes (vals ++ List.replicate (8 - vals.length) 0))).flatten.take outlen)
    | none => none

/-- UTF-8 bytes of one character (Rust's `str::as_bytes`, used by the raw-byte
fallback of the key decoder). -/
def utf8Bytes (c : Char) : List Nat :=
  let n := c.toNat
  if n < 0x80 then [n]
  else if n < 0x800 then [0xC0 ||| (n >>> 6), 0x80 ||| (n &&& 0x3F)]
  else if n < 0x10000 then
    [0xE0 ||| (n >>> 12), 0x80 ||| ((n >>> 6) &&& 0x3F), 0x80 ||| (n &&& 0x3F)]
  else
    [0xF0 ||| (n >>> 18), 0x80 ||| ((n >>> 12) &&& 0x3F),
     0x80 ||| ((n >>> 6) &&& 0x3F), 0x80 ||| (n &&& 0x3F)]

/-! ## The key decoder (`TotpGenerator::decode_secret` and `pad_key`) -/

/-- `input.to_uppercase().replace(" ", "")` as a character list.  (Lean's
`Char.toUpper` is ASCII-only; Rust's `to_uppercase` agrees with it on ASCII.) -/
def normalizeSecret (input : String) : List Char :=
  (input.data.map Char.toUpper).filter (fun c => c ≠ ' ')

/-- `const BASE32_CHARS` of `decode_secret`. -/
def base32Chars : List Char :=
  "ABCDEFGHIJKLMNOPQRSTUVWXYZ234567".data

/-- Rust `String::replace` for a single-character pattern and single-character
replacement (the only shape `decode_secret` uses). -/
def replaceChar (a b : Char) (l : List Char) : List Char :=
  l.map (fun c => if c = a then b else c)

/-- `'='`-fill to the next multiple of 8 (`while padded.len() % 8 != 0`). -/
def padTo8 (l : List Char) : List Char :=
  l ++ List.replicate ((8 - l.length % 8) % 8) '='

/-- `TotpGenerator::pad_key`: zero-extend a key shorter than 16 bytes to
exactly 16 bytes (`resize(16, 0)`); longer keys are returned unchanged. -/
def pad_key (key : List Nat) : List Nat :=
  if key.length < 16 then key ++ List.replicate (16 - key.length) 0 else key

/-- `TotpGenerator::decode_secret`: the layered tolerant decoding chain.  Each
`return` site of the source is one `match`/`if` branch here; the guards
`filtered != normalized` and `substituted != normalized` are folded into the
scrutinees (an attempt that is skipped behaves like a failed attempt). -/
def decode_secret (input : String) : List Nat :=
  let normalized := normalizeSecret input
  match base32decode false normalized with
  | some decoded => if 16 ≤ decoded.length then decoded else pad_key decoded
  | none =>
  match base32decode true (padTo8 normalized) with
  | some decoded => if 16 ≤ decoded.length then decoded else pad_key decoded
  | none =>
  let filtered := normalized.filter (fun c => base32Chars.contains c)
  match (if filtered ≠ normalized then base32decode false filtered else none) with
  | some decoded => if 16 ≤ decoded.length then decoded else pad_key decoded
  | none =>
  match (if filtered ≠ normalized then base32decode true (padTo8 filtered) else none) with
  | some decoded => if 16 ≤ decoded.length then decoded else pad_key decoded
  | none =>
  let substituted :=
    replaceChar 'L' 'I' (replaceChar '8' 'B' (replaceChar '0' 'O' (replaceChar '1' 'I' normalized)))
  match (if substituted ≠ normalized then base32decode false substituted else none) with
  | some decoded => if 16 ≤ decoded.length then decoded else pad_key decoded
  | none =>
  let raw_bytes := normalized.flatMap utf8Bytes
  if 16 ≤ raw_bytes.length then raw_bytes else pad_key raw_bytes

/-- The specification's rendering of the key decoder (§4.1 of the spec),
written to the spec's own wording for the refinement claim: collect the
attempts of steps 2-5 in the stated strict order, take the first success,
fall back to the raw bytes of the normalized text (step 6), and only then
apply the common zero-pad-to-16 rule (step 7). -/
def decodeSecretSpec (input : String) : List Nat :=
  let normalized := normalizeSecret input
  let attempt2 := base32decode false normalized
  let attempt3 := base32decode true (padTo8 normalized)
  let filtered := normalized.filter (fun c => base32Chars.contains c)
  let attempt4a := if filtered ≠ normalized then base32decode false filtered else none
  let attempt4b := if filtered ≠ normalized then base32decode true (padTo8 filtered) else none
  let substituted :=
    replaceChar 'L' 'I' (replaceChar '8' 'B' (replaceChar '0' 'O' (replaceChar '1' 'I' normalized)))
  let attempt5 := if substituted ≠ normalized then base32decode false substituted else none
  let firstSuccess :=
    match attempt2 with
    | some d => some d
    | none =>
      match attempt3 with
      | some d => some d
      | none =>
        match attempt4a with
        | some d => some d
        | none =>
          match attempt4b with
          | some d => some d
          | none => attempt5
  let bytes :=
    match firstSuccess with
    | some d => d
    | none => normalized.flatMap utf8Bytes
  if bytes.length < 16 then bytes ++ List.replicate (16 - bytes.length) 0 else bytes

/-! ## SHA-1, HMAC-SHA1, and the totp_rs code derivation

`generate_token` builds a `totp_rs::TOTP` with `Algorithm::SHA1`, the
configured digit count, skew 1, the configured period, and the decoded key,
and then asks it for the current code.  totp_rs validates the digit count
(6..=8) and the minimum key length (128 bits) in `TOTP::new`, and derives the
code as in RFC 6238: HMAC-SHA1 of the big-endian 8-byte time-step counter
`now / step` under the key, dynamic truncation, reduction mod `10 ^ digits`,
and left-zero-padding to `digits` characters. -/

/-- Left-rotate a 32-bit word (inputs are kept below `2 ^ 32`). -/
def rotl32 (s x : Nat) : Nat :=
  ((x <<< s) ||| (x >>> (32 - s))) % 2 ^ 32

/-- Big-endian bytes of a 32-bit word. -/
def be32bytes (n : Nat) : List Nat :=
  [(n >>> 24) % 256, (n >>> 16) % 256, (n >>> 8) % 256, n % 256]

/-- Big-endian bytes of a 64-bit word (`u64::to_be_bytes`). -/
def be64bytes (n : Nat) : List Nat :=
  [(n >>> 56) % 256, (n >>> 48) % 256, (n >>> 40) % 256, (n >>> 32) % 256,
   (n >>> 24) % 256, (n >>> 16) % 256, (n >>> 8) % 256, n % 256]

/-- The SHA-1 message schedule over one 64-byte block. -/
def sha1w (block : List Nat) (i : Nat) : Nat :=
  if h : i < 16 then
    ((block.getD (4 * i) 0) <<< 24) ||| ((block.getD (4 * i + 1) 0) <<< 16) |||
    ((block.getD (4 * i + 2) 0) <<< 8) ||| block.getD (4 * i + 3) 0
  else
    rotl32 1 ((((sha1w block (i - 3)).xor (sha1w block (i - 8))).xor
      (sha1w block (i - 14))).xor (sha1w block (i - 16)))
termination_by i
decreasing_by all_goals omega

/-- One SHA-1 round. -/
def sha1round (block : List Nat) (st : Nat × Nat × Nat × Nat × Nat) (t : Nat) :
    Nat × Nat × Nat × Nat × Nat :=
  let (a, b, c, d, e) := st
  let f :=
    if t < 20 then (b &&& c) ||| ((2 ^ 32 - 1 - b) &&& d)
    else if t < 40 then (b.xor c).xor d
    else if t < 60 then ((b &&& c) ||| (b &&& d)) ||| (c &&& d)
    else (b.xor c).xor d
  let k :=
    if t < 20 then 0x5A827999
    else if t < 40 then 0x6ED9EBA1
    else if t < 60 then 0x8F1BBCDC
    else 0xCA62C1D6
  let temp := (rotl32 5 a + f + e + k + sha1w block t) % 2 ^ 32
  (temp, a, rotl32 30 b, c, d)

/-- SHA-1 compression of one 64-byte block into the running state. -/
def sha1block (h : Nat × Nat × Nat × Nat × Nat) (block : List Nat) :
    Nat × Nat × Nat × Nat × Nat :=
  let (a, b, c, d, e) := (List.range 80).foldl (sha1round block) h
  ((h.1 + a) % 2 ^ 32, (h.2.1 + b) % 2 ^ 32, (h.2.2.1 + c) % 2 ^ 32,
   (h.2.2.2.1 + d) % 2 ^ 32, (h.2.2.2.2 + e) % 2 ^ 32)

/-- SHA-1 padding: `0x80`, zeros to 56 mod 64, then the bit length. -/
def sha1pad (msg : List Nat) : List Nat :=
  msg ++ [0x80] ++ List.replicate ((64 - (msg.length + 9) % 64) % 64) 0 ++
    be64bytes (8 * msg.length)

/-- SHA-1 of a byte list, as a 20-byte list. -/
def sha1 (msg : List Nat) : List Nat :=
  let H := (chunksOf 64 (sha1pad msg)).foldl sha1block
    (0x67452301, 0xEFCDAB89, 0x98BADCFE, 0x10325476, 0xC3D2E1F0)
  be32bytes H.1 ++ be32bytes H.2.1 ++ be32bytes H.2.2.1 ++
    be32bytes H.2.2.2.1 ++ be32bytes H.2.2.2.2

/-- HMAC-SHA1 (RFC 2104): hash over-long keys, zero-fill to the 64-byte block
size, inner pad `0x36`, outer pad `0x5C`. -/
def hmacSha1 (key msg : List Nat) : List Nat :=
  let k0 := if 64 < key.length then sha1 key else key
  let k := k0 ++ List.replicate (64 - k0.length) 0
  sha1 ((k.map (fun b => b.xor 0x5C)) ++ sha1 ((k.map (fun b => b.xor 0x36)) ++ msg))

/-- totp_rs `Algorithm`; only `SHA1` is ever constructed by this program. -/
inductive Algorithm where
  | SHA1
deriving DecidableEq

/-- totp_rs `TOTP` (the fields `generate_token` populates). -/
structure TOTP where
  algorithm : Algorithm
  digits : Nat
  skew : Nat
  step : Nat
  secret : List Nat
deriving DecidableEq

/-- totp_rs `TOTP::new`: validates the RFC 6238 digit range 6..=8 and the
128-bit minimum key length (error payloads summarize the library's Display
texts; only their presence is observable downstream). -/
def TOTP.new (algorithm : Algorithm) (digits skew step : Nat) (secret : List Nat) :
    Except String TOTP :=
  if digits < 6 ∨ 8 < digits then Except.error "digits must be between 6 and 8"
  else if secret.length < 16 then Except.error "secret is shorter than 128 bits"
  else Except.ok ⟨algorithm, digits, skew, step, secret⟩

/-- totp_rs `TOTP::sign` for SHA1: HMAC over the big-endian time-step counter. -/
def TOTP.sign (t : TOTP) (time : Nat) : List Nat :=
  hmacSha1 t.secret (be64bytes (time / t.step))

/-- Rust's zero-padded fixed-width decimal formatting. -/
def zeroPadFmt (width n : Nat) : String :=
  let s := decimalString n
  String.mk (List.replicate (width - s.data.length) '0' ++ s.data)

/-- totp_rs `TOTP::generate`: dynamic truncation of the HMAC and reduction to
`digits` decimal digits. -/
def TOTP.generate (t : TOTP) (time : Nat) : String :=
  let result := t.sign time
  let offset := result.getLastD 0 &&& 15
  let code :=
    ((((result.getD offset 0) <<< 24) ||| ((result.getD (offset + 1) 0) <<< 16) |||
      ((result.getD (offset + 2) 0) <<< 8) ||| result.getD (offset + 3) 0) &&&
      0x7FFFFFFF)
  zeroPadFmt t.digits (code % 10 ^ t.digits)

/-- totp_rs `TOTP::generate_current`: reads the system clock and generates; the
clock read is the explicit `now` argument here, so the `SystemTimeError` case
cannot arise in the model (the `Except` is kept for call-site fidelity). -/
def generate_current (t : TOTP) (now : Nat) : Except String String :=
  Except.ok (t.generate now)

/-! ## Application state (`Tab`, `TotpGenerator`) and the message handler -/

/-- One session ("tab"). -/
structure Tab where
  name : String
  secret_key : String
  token : String
  error : Option String
  time_remaining : Nat
  editing_name : Bool
deriving DecidableEq

/-- `Tab::default()`. -/
def Tab.default : Tab :=
  { name := "New Tab", secret_key := "", token := "", error := none,
    time_remaining := 30, editing_name := true }

/-- The whole application model. -/
structure TotpGenerator where
  tabs : List Tab
  active_tab : Nat
  digits : Nat
  period : Nat
deriving DecidableEq

/-- `TotpGenerator::default()`. -/
def TotpGenerator.default : TotpGenerator :=
  { tabs := [Tab.default], active_tab := 0, digits := 6, period := 30 }

/-- The effect of `generate_token` on the addressed tab, given the clock read
`now` and the current global `digits` / `period` (the only state it consults
besides the tab itself). -/
def genTab (digits period now : Nat) (tab : Tab) : Tab :=
  if tab.secret_key = "" then
    { tab with error := some "Please enter a secret key", token := "" }
  else
    let decoded_key := decode_secret tab.secret_key
    match TOTP.new Algorithm.SHA1 digits 1 period decoded_key with
    | Except.ok totp =>
      match generate_current totp now with
      | Except.ok tok =>
          { tab with token := tok, error := none,
                     time_remaining := period - now % period }
      | Except.error e =>
          { tab with error := some ("Failed to generate token: " ++ e), token := "" }
    | Except.error e =>
        { tab with error := some ("Invalid secret key: " ++ e), token := "" }

/-- `TotpGenerator::generate_token(tab_index)` at clock read `now`: early
return when the index is out of range, otherwise update that tab in place. -/
def generateTokenAt (now : Nat) (st : TotpGenerator) (tab_index : Nat) :
    TotpGenerator :=
  if tab_index < st.tabs.length then
    { st with tabs := modifyNth (genTab st.digits st.period now) tab_index st.tabs }
  else st

/-- Second pass of the tick handler: regenerate the queued tabs in order; the
`j`-th call performs the message's `j`-th remaining clock read. -/
def regenFold (clock : Nat → Nat) : Nat → TotpGenerator → List Nat → TotpGenerator
  | _, st, [] => st
  | j, st, i :: rest => regenFold clock (j + 1) (generateTokenAt (clock j) st i) rest

/-- The `Message::Tick` handler.  `clock i` is the i-th `SystemTime::now()`
performed while handling this tick: read 0 drives the first pass (countdown
refresh and collection of the indices whose freshly computed remaining time
equals the full period), and each `generate_token` of the second pass performs
one further read. -/
def tickClock (st : TotpGenerator) (clock : Nat → Nat) : TotpGenerator :=
  let now := clock 0
  let tabs1 := st.tabs.map (fun t =>
    if t.token ≠ "" then { t with time_remaining := st.period - now % st.period } else t)
  let indices_to_regenerate := (List.range st.tabs.length).filter (fun i =>
    ((st.tabs.getD i Tab.default).token != "") &&
      (st.period - now % st.period == st.period))
  regenFold clock 1 { st with tabs := tabs1 } indices_to_regenerate

/-- Outcome of the clipboard collaborator for one copy request. -/
inductive ClipEnv where
  | providerFail (e : String)
  | setFail (e : String)
  | copied
deriving DecidableEq

/-- The message set of the `iced` application.  External inputs that the
handler would read (clock, clipboard) travel as constructor payloads. -/
inductive Message where
  | secretKeyChanged (value : String) (tab_index : Nat) (now : Nat)
  | digitsChanged (d : Nat)
  | periodChanged (p : Nat)
  | generateTokenMsg (now : Nat)
  | copyToClipboard (tab_index : Nat) (clip : ClipEnv)
  | tickMsg (clock : Nat → Nat)
  | clearMessage (tab_index : Nat)
  | addTab
  | removeTab (idx : Nat)
  | selectTab (idx : Nat)
  | renameTabStarted (idx : Nat)
  | tabNameChanged (nm : String) (idx : Nat)
  | tabNameConfirmed (idx : Nat)

/-- In-place mutation of one tab (`self.tabs[i].field = ...`). -/
def modTab (st : TotpGenerator) (idx : Nat) (f : Tab → Tab) : TotpGenerator :=
  { st with tabs := modifyNth f idx st.tabs }

/-- `TotpGenerator::update`.  Commands (the deferred message clear after a
successful copy) are not modeled; the source's returned `Command` carries no
state change. -/
def update (st : TotpGenerator) (msg : Message) : TotpGenerator :=
  match msg with
  | Message.secretKeyChanged value tab_index now =>
    if tab_index < st.tabs.length then
      let st1 := modTab st tab_index (fun t => { t with secret_key := value, error := none })
      if value ≠ "" then generateTokenAt now st1 tab_index
      else modTab st1 tab_index (fun t => { t with token := "" })
    else st
  | Message.digitsChanged _ => { st with digits := 6 }
  | Message.periodChanged _ => { st with period := 30 }
  | Message.generateTokenMsg now => generateTokenAt now st st.active_tab
  | Message.copyToClipboard tab_index clip =>
    if tab_index < st.tabs.length ∧ (st.tabs.getD tab_index Tab.default).token ≠ "" then
      match clip with
      | ClipEnv.providerFail e =>
          modTab st tab_index (fun t => { t with error := some ("Failed to access clipboard: " ++ e) })
      | ClipEnv.setFail e =>
          modTab st tab_index (fun t => { t with error := some ("Failed to copy to clipboard: " ++ e) })
      | ClipEnv.copied =>
          modTab st tab_index (fun t => { t with error := some "Code copied to clipboard!" })
    else st
  | Message.clearMessage tab_index =>
    if tab_index < st.tabs.length then
      modTab st tab_index (fun t => { t with error := none })
    else st
  | Message.tickMsg clock => tickClock st clock
  | Message.addTab =>
    { st with
      tabs := st.tabs ++ [{ Tab.default with name := "Tab " ++ decimalString (st.tabs.length + 1) }],
      active_tab := st.tabs.length }
  | Message.removeTab idx =>
    if 1 < st.tabs.length ∧ idx < st.tabs.length then
      let tabs1 := st.tabs.eraseIdx idx
      { st with tabs := tabs1, active_tab := if tabs1.length ≤ st.active_tab then tabs1.length - 1 else st.active_tab }
    else st
  | Message.selectTab idx =>
    if idx < st.tabs.length then { st with active_tab := idx } else st
  | Message.renameTabStarted idx =>
    if idx < st.tabs.length then
      modTab st idx (fun t => { t with editing_name := true })
    else st
  | Message.tabNameChanged nm idx =>
    if idx < st.tabs.length then
      modTab st idx (fun t => { t with name := nm })
    else st
  | Message.tabNameConfirmed idx =>
    if idx < st.tabs.length then
      modTab st idx (fun t => { t with editing_name := false })
    else st

/-- The SessionStore invariant: the tab collection is never empty and the
active index always addresses an existing tab. -/
def StoreInv (st : TotpGenerator) : Prop :=
  0 < st.tabs.length ∧ st.active_tab < st.tabs.length

instance (st : TotpGenerator) : Decidable (StoreInv st) := by
  unfold StoreInv
  infer_instance


/-! ## Basic facts about the key decoder -/

theorem pad_key_short {k : List Nat} (h : k.length < 16) :
    pad_key k = k ++ List.replicate (16 - k.length) 0 := by
  unfold pad_key
  rw [if_pos h]

theorem pad_key_long {k : List Nat} (h : 16 ≤ k.length) : pad_key k = k := by
  unfold pad_key
  rw [if_neg (by omega)]

theorem pad_key_length (k : List Nat) : 16 ≤ (pad_key k).length := by
  unfold pad_key
  split
  · simp only [List.length_append, List.length_replicate]
    omega
  · omega

theorem decode_secret_length (input : String) : 16 ≤ (decode_secret input).length := by
  simp only [decode_secret]
  repeat' split
  all_goals first
    | assumption
    | exact pad_key_length _

/-! ## Facts about the code derivation -/

theorem TOTP.new_ok {a : Algorithm} {d s p : Nat} {k : List Nat} {t : TOTP}
    (h : TOTP.new a d s p k = Except.ok t) : t = ⟨a, d, s, p, k⟩ := by
  unfold TOTP.new at h
  split at h
  · cases h
  · split at h
    · cases h
    · exact (Except.ok.inj h).symm

theorem generate_window (t : TOTP) (n1 n2 : Nat) (h : n1 / t.step = n2 / t.step) :
    t.generate n1 = t.generate n2 := by
  unfold TOTP.generate TOTP.sign
  rw [h]

theorem zeroPadFmt_length (width n : Nat) (h1 : 1 ≤ width) (h : n < 10 ^ width) :
    (zeroPadFmt width n).length = width := by
  have hl := decDigits_length_le width n h
  show (List.replicate (width - (decimalString n).data.length) '0' ++
    (decimalString n).data).length = width
  have he : (decimalString n).data = decDigits n := rfl
  rw [he]
  simp only [List.length_append, List.length_replicate]
  omega

theorem generate_length (t : TOTP) (time : Nat) (h : 1 ≤ t.digits) :
    (TOTP.generate t time).length = t.digits := by
  unfold TOTP.generate
  exact zeroPadFmt_length _ _ h (Nat.mod_lt _ (Nat.pos_pow_of_pos _ (by omega)))

theorem generate_ne_empty (t : TOTP) (time : Nat) (h : 1 ≤ t.digits) :
    TOTP.generate t time ≠ "" := by
  intro he
  have hl := generate_length t time h
  rw [he] at hl
  have h0 : ("" : String).length = 0 := rfl
  omega

/-! ## Facts about `genTab` (the per-tab effect of `generate_token`) -/

theorem genTab_empty (digits period now : Nat) (tab : Tab) (hs : tab.secret_key = "") :
    genTab digits period now tab =
      { tab with error := some "Please enter a secret key", token := "" } := by
  unfold genTab
  rw [if_pos hs]

theorem genTab_success (digits period now : Nat) (tab : Tab)
    (hs : tab.secret_key ≠ "") (h6 : 6 ≤ digits) (h8 : digits ≤ 8) :
    genTab digits period now tab =
      { tab with
        token := TOTP.generate ⟨Algorithm.SHA1, digits, 1, period, decode_secret tab.secret_key⟩ now,
        error := none,
        time_remaining := period - now % period } := by
  have hd : ¬(digits < 6 ∨ 8 < digits) := by omega
  have hk : ¬((decode_secret tab.secret_key).length < 16) := by
    have := decode_secret_length tab.secret_key
    omega
  simp [genTab, TOTP.new, hs, hd, hk, generate_current]

theorem genTab_secret_key (digits period now : Nat) (tab : Tab) :
    (genTab digits period now tab).secret_key = tab.secret_key := by
  simp only [genTab]
  repeat' split
  all_goals rfl

theorem genTab_remaining (digits period now : Nat) (tab : Tab) :
    (genTab digits period now tab).time_remaining = tab.time_remaining ∨
    (genTab digits period now tab).time_remaining = period - now % period := by
  simp only [genTab]
  repeat' split
  all_goals first | exact Or.inl rfl | exact Or.inr rfl

theorem genTab_token_eq (digits period now : Nat) (t1 t2 : Tab)
    (h : t1.secret_key = t2.secret_key) :
    (genTab digits period now t1).token = (genTab digits period now t2).token := by
  simp only [genTab, h]
  by_cases hs : t2.secret_key = ""
  · simp [hs]
  · simp only [hs, if_neg, if_false]
    rcases hE : TOTP.new Algorithm.SHA1 digits 1 period (decode_secret t2.secret_key) with e | t
    · simp [hE]
    · simp [hE, generate_current]

theorem genTab_token_window (digits period n1 n2 : Nat) (tab : Tab)
    (h : n1 / period = n2 / period) :
    (genTab digits period n1 tab).token = (genTab digits period n2 tab).token := by
  simp only [genTab]
  by_cases hs : tab.secret_key = ""
  · simp [hs]
  · simp only [hs, if_neg, if_false]
    rcases hE : TOTP.new Algorithm.SHA1 digits 1 period (decode_secret tab.secret_key) with e | t
    · simp [hE]
    · have ht : t = ⟨Algorithm.SHA1, digits, 1, period, decode_secret tab.secret_key⟩ :=
        TOTP.new_ok hE
      simp only [hE, generate_current]
      have : t.generate n1 = t.generate n2 := by
        apply generate_window
        rw [ht]
        exact h
      simp [this]

/-! ## Facts about `generate_token` at the state level -/

theorem generateTokenAt_digits (now : Nat) (st : TotpGenerator) (i : Nat) :
    (generateTokenAt now st i).digits = st.digits := by
  unfold generateTokenAt
  split <;> rfl

theorem generateTokenAt_period (now : Nat) (st : TotpGenerator) (i : Nat) :
    (generateTokenAt now st i).period = st.period := by
  unfold generateTokenAt
  split <;> rfl

theorem generateTokenAt_active (now : Nat) (st : TotpGenerator) (i : Nat) :
    (generateTokenAt now st i).active_tab = st.active_tab := by
  unfold generateTokenAt
  split <;> rfl

theorem generateTokenAt_length (now : Nat) (st : TotpGenerator) (i : Nat) :
    (generateTokenAt now st i).tabs.length = st.tabs.length := by
  unfold generateTokenAt
  split
  · exact modifyNth_length _ _ _
  · rfl

theorem generateTokenAt_getD_self (now : Nat) (st : TotpGenerator) (i : Nat)
    (h : i < st.tabs.length) :
    (generateTokenAt now st i).tabs.getD i Tab.default
      = genTab st.digits st.period now (st.tabs.getD i Tab.default) := by
  unfold generateTokenAt
  rw [if_pos h]
  exact getD_modifyNth_self _ _ _ _ h

theorem generateTokenAt_getD_ne (now : Nat) (st : TotpGenerator) (i j : Nat)
    (h : j ≠ i) :
    (generateTokenAt now st i).tabs.getD j Tab.default
      = st.tabs.getD j Tab.default := by
  unfold generateTokenAt
  split
  · exact getD_modifyNth_ne _ _ _ _ _ h
  · rfl

/-! ## Facts about the tick handler -/

theorem regenFold_digits (clock : Nat → Nat) (is : List Nat) :
    ∀ (j : Nat) (st : TotpGenerator), (regenFold clock j st is).digits = st.digits := by
  induction is with
  | nil => intro j st; rfl
  | cons i is ih =>
      intro j st
      rw [regenFold, ih, generateTokenAt_digits]

theorem regenFold_period (clock : Nat → Nat) (is : List Nat) :
    ∀ (j : Nat) (st : TotpGenerator), (regenFold clock j st is).period = st.period := by
  induction is with
  | nil => intro j st; rfl
  | cons i is ih =>
      intro j st
      rw [regenFold, ih, generateTokenAt_period]

theorem regenFold_active (clock : Nat → Nat) (is : List Nat) :
    ∀ (j : Nat) (st : TotpGenerator), (regenFold clock j st is).active_tab = st.active_tab := by
  induction is with
  | nil => intro j st; rfl
  | cons i is ih =>
      intro j st
      rw [regenFold, ih, generateTokenAt_active]

theorem regenFold_length (clock : Nat → Nat) (is : List Nat) :
    ∀ (j : Nat) (st : TotpGenerator),
      (regenFold clock j st is).tabs.length = st.tabs.length := by
  induction is with
  | nil => intro j st; rfl
  | cons i is ih =>
      intro j st
      rw [regenFold, ih, generateTokenAt_length]

theorem regenFold_getD_nmem (clock : Nat → Nat) (is : List Nat) :
    ∀ (j : Nat) (st : TotpGenerator) (idx : Nat), idx ∉ is →
      (regenFold clock j st is).tabs.getD idx Tab.default
        = st.tabs.getD idx Tab.default := by
  induction is with
  | nil => intro j st idx _; rfl
  | cons i is ih =>
      intro j st idx hmem
      simp only [List.mem_cons, not_or] at hmem
      rw [regenFold, ih _ _ _ hmem.2, generateTokenAt_getD_ne _ _ _ _ hmem.1]

theorem regenFold_getD_mem (clock : Nat → Nat) (is : List Nat) :
    ∀ (j : Nat) (st : TotpGenerator) (idx : Nat), idx ∈ is → is.Nodup →
      idx < st.tabs.length →
      ∃ k, j ≤ k ∧ (regenFold clock j st is).tabs.getD idx Tab.default
        = genTab st.digits st.period (clock k) (st.tabs.getD idx Tab.default) := by
  induction is with
  | nil => intro j st idx h; cases h
  | cons i is ih =>
      intro j st idx hmem hnd hlt
      rw [regenFold]
      rcases List.mem_cons.mp hmem with he | htail
      · subst he
        have hni : idx ∉ is := (List.nodup_cons.mp hnd).1
        refine ⟨j, Nat.le_refl j, ?_⟩
        rw [regenFold_getD_nmem clock is _ _ _ hni]
        exact generateTokenAt_getD_self (clock j) st idx hlt
      · have hne : idx ≠ i := by
          intro e
          subst e
          exact (List.nodup_cons.mp hnd).1 htail
        obtain ⟨k, hk, he⟩ := ih (j + 1) (generateTokenAt (clock j) st i) idx htail
          (List.nodup_cons.mp hnd).2 (by rw [generateTokenAt_length]; exact hlt)
        refine ⟨k, by omega, ?_⟩
        rw [he, generateTokenAt_digits, generateTokenAt_period,
          generateTokenAt_getD_ne _ _ _ _ hne]

theorem getD_map_lt {α β : Type} (f : α → β) (d : β) (e : α) (l : List α) (i : Nat)
    (h : i < l.length) : (l.map f).getD i d = f (l.getD i e) := by
  rw [List.getD_eq_getElem?_getD, List.getD_eq_getElem?_getD]
  rw [List.getElem?_eq_getElem (by simpa using h), List.getElem?_eq_getElem h]
  simp

theorem tickClock_digits (st : TotpGenerator) (clock : Nat → Nat) :
    (tickClock st clock).digits = st.digits := by
  simp only [tickClock]
  rw [regenFold_digits]

theorem tickClock_period (st : TotpGenerator) (clock : Nat → Nat) :
    (tickClock st clock).period = st.period := by
  simp only [tickClock]
  rw [regenFold_period]

theorem tickClock_active (st : TotpGenerator) (clock : Nat → Nat) :
    (tickClock st clock).active_tab = st.active_tab := by
  simp only [tickClock]
  rw [regenFold_active]

theorem tickClock_length (st : TotpGenerator) (clock : Nat → Nat) :
    (tickClock st clock).tabs.length = st.tabs.length := by
  simp only [tickClock]
  rw [regenFold_length]
  simp

/-- The regeneration queue of one tick: membership characterization. -/
theorem tick_regen_mem (st : TotpGenerator) (now idx : Nat) :
    (idx ∈ (List.range st.tabs.length).filter (fun i =>
        ((st.tabs.getD i Tab.default).token != "") &&
          (st.period - now % st.period == st.period)))
      ↔ idx < st.tabs.length ∧ (st.tabs.getD idx Tab.default).token ≠ "" ∧
          st.period - now % st.period = st.period := by
  simp [List.mem_filter, List.mem_range, and_assoc]

/-- Master characterization of one tick's effect on the tab at a valid index:
untouched when its code is empty; countdown refreshed from the tick's first
clock read when the window did not roll over; countdown refreshed and then
regenerated by `generate_token` at some later clock read of the same message
when it did. -/
theorem tickClock_getD (st : TotpGenerator) (clock : Nat → Nat) (idx : Nat)
    (h : idx < st.tabs.length) :
    ((st.tabs.getD idx Tab.default).token = "" →
      (tickClock st clock).tabs.getD idx Tab.default = st.tabs.getD idx Tab.default)
    ∧ ((st.tabs.getD idx Tab.default).token ≠ "" →
        st.period - clock 0 % st.period ≠ st.period →
        (tickClock st clock).tabs.getD idx Tab.default
          = { st.tabs.getD idx Tab.default with
              time_remaining := st.period - clock 0 % st.period })
    ∧ ((st.tabs.getD idx Tab.default).token ≠ "" →
        st.period - clock 0 % st.period = st.period →
        ∃ k, 1 ≤ k ∧ (tickClock st clock).tabs.getD idx Tab.default
          = genTab st.digits st.period (clock k)
              { st.tabs.getD idx Tab.default with
                time_remaining := st.period - clock 0 % st.period }) := by
  refine ⟨?_, ?_, ?_⟩
  · intro htok
    simp only [tickClock]
    rw [regenFold_getD_nmem _ _ _ _ _ (by
      rw [tick_regen_mem]
      intro hc
      exact hc.2.1 htok)]
    show (st.tabs.map _).getD idx Tab.default = _
    rw [getD_map_lt _ _ Tab.default _ _ h]
    rw [if_neg (fun hc => hc htok)]
  · intro htok hroll
    simp only [tickClock]
    rw [regenFold_getD_nmem _ _ _ _ _ (by
      rw [tick_regen_mem]
      intro hc
      exact hroll hc.2.2)]
    show (st.tabs.map _).getD idx Tab.default = _
    rw [getD_map_lt _ _ Tab.default _ _ h]
    rw [if_pos htok]
  · intro htok hroll
    simp only [tickClock]
    have hmem : idx ∈ (List.range st.tabs.length).filter (fun i =>
        ((st.tabs.getD i Tab.default).token != "") &&
          (st.period - clock 0 % st.period == st.period)) := by
      rw [tick_regen_mem]
      exact ⟨h, htok, hroll⟩
    have hnd : ((List.range st.tabs.length).filter (fun i =>
        ((st.tabs.getD i Tab.default).token != "") &&
          (st.period - clock 0 % st.period == st.period))).Nodup :=
      (List.nodup_range _).filter _
    obtain ⟨k, hk, he⟩ := regenFold_getD_mem clock _ 1
      { st with tabs := st.tabs.map (fun t =>
          if t.token ≠ "" then { t with time_remaining := st.period - clock 0 % st.period } else t) }
      idx hmem hnd (by simpa using h)
    refine ⟨k, hk, ?_⟩
    rw [he]
    show genTab st.digits st.period (clock k) ((st.tabs.map _).getD idx Tab.default) = _
    rw [getD_map_lt _ _ Tab.default _ _ h]
    rw [if_pos htok]

/-! ## Claim theorems -/

theorem finalize_eq (d : List Nat) :
    (if 16 ≤ d.length then d else pad_key d)
      = (if d.length < 16 then d ++ List.replicate (16 - d.length) 0 else d) := by
  by_cases h : d.length < 16
  · rw [if_neg (by omega), if_pos h, pad_key_short h]
  · rw [if_pos (by omega), if_neg h]

/-- C1: `decode_secret` is total and always returns at least 16 bytes;
`pad_key` extends any shorter byte sequence with zero bytes to exactly 16 and
returns sequences of 16 or more bytes unchanged. -/
theorem spec_C1 :
    (∀ input : String, 16 ≤ (decode_secret input).length)
    ∧ (∀ k : List Nat, k.length < 16 →
        pad_key k = k ++ List.replicate (16 - k.length) 0 ∧ (pad_key k).length = 16)
    ∧ (∀ k : List Nat, 16 ≤ k.length → pad_key k = k) := by
  refine ⟨decode_secret_length, ?_, ?_⟩
  · intro k h
    refine ⟨pad_key_short h, ?_⟩
    rw [pad_key_short h]
    simp only [List.length_append, List.length_replicate]
    omega
  · intro k h
    exact pad_key_long h

theorem spec_C1_witness :
    pad_key [1, 2, 3] = [1, 2, 3] ++ List.replicate 13 0
    ∧ pad_key (List.replicate 20 5) = List.replicate 20 5 :=
  ⟨(spec_C1.2.1 [1, 2, 3] (by decide)).1,
    spec_C1.2.2 (List.replicate 20 5) (by decide)⟩

/-- C2: `decode_secret` tries its fallbacks in exactly the spec's strict
order with first success winning (it coincides with the decoder transcribed
from the spec's §4.1 wording), and the non-alphabet secret
"not valid base32 at all!!" still yields a usable 16-byte key (here: the
zero-padded decode of the filtered string "NOTVALIDBASE32ATALL"). -/
theorem spec_C2 :
    (∀ input : String, decode_secret input = decodeSecretSpec input)
    ∧ decode_secret "not valid base32 at all!!"
        = [107, 167, 80, 45, 3, 8, 36, 77, 232, 19, 2, 0, 0, 0, 0, 0]
    ∧ 16 ≤ (decode_secret "not valid base32 at all!!").length := by
  refine ⟨?_, by decide, decode_secret_length _⟩
  intro input
  simp only [decode_secret, decodeSecretSpec]
  cases h1 : base32decode false (normalizeSecret input) with
  | some d => exact finalize_eq d
  | none =>
  cases h2 : base32decode true (padTo8 (normalizeSecret input)) with
  | some d => exact finalize_eq d
  | none =>
  cases h3 : (if (normalizeSecret input).filter (fun c => base32Chars.contains c)
      ≠ normalizeSecret input then
      base32decode false ((normalizeSecret input).filter (fun c => base32Chars.contains c))
    else none) with
  | some d => exact finalize_eq d
  | none =>
  cases h4 : (if (normalizeSecret input).filter (fun c => base32Chars.contains c)
      ≠ normalizeSecret input then
      base32decode true (padTo8 ((normalizeSecret input).filter (fun c => base32Chars.contains c)))
    else none) with
  | some d => exact finalize_eq d
  | none =>
  cases h5 : (if replaceChar 'L' 'I' (replaceChar '8' 'B' (replaceChar '0' 'O'
      (replaceChar '1' 'I' (normalizeSecret input)))) ≠ normalizeSecret input then
      base32decode false (replaceChar 'L' 'I' (replaceChar '8' 'B' (replaceChar '0' 'O'
        (replaceChar '1' 'I' (normalizeSecret input)))))
    else none) with
  | some d => exact finalize_eq d
  | none => exact finalize_eq _

/-- C3: whenever a code is derived, the stored remaining time is
`period - now % period` for the `now` of that derivation; whenever a tick
updates a session holding a non-empty code, its stored remaining time is
`period - now % period` for one of that tick's clock reads; the formula's
value lies in `[1, period]` (never 0) for every `now` when the period is
positive; and with period 30 at `now = 59` it is 1. -/
theorem spec_C3 :
    (∀ (st : TotpGenerator) (now idx : Nat), idx < st.tabs.length →
      (st.tabs.getD idx Tab.default).secret_key ≠ "" →
      6 ≤ st.digits → st.digits ≤ 8 →
      ((generateTokenAt now st idx).tabs.getD idx Tab.default).time_remaining
        = st.period - now % st.period)
    ∧ (∀ (st : TotpGenerator) (clock : Nat → Nat) (idx : Nat), idx < st.tabs.length →
        (st.tabs.getD idx Tab.default).token ≠ "" →
        ∃ k, ((tickClock st clock).tabs.getD idx Tab.default).time_remaining
          = st.period - clock k % st.period)
    ∧ (∀ period now : Nat, 0 < period →
        1 ≤ period - now % period ∧ period - now % period ≤ period)
    ∧ 30 - 59 % 30 = 1 := by
  refine ⟨?_, ?_, ?_, by decide⟩
  · intro st now idx h hs h6 h8
    rw [generateTokenAt_getD_self now st idx h,
      genTab_success st.digits st.period now _ hs h6 h8]
  · intro st clock idx h htok
    obtain ⟨c1, c2, c3⟩ := tickClock_getD st clock idx h
    by_cases hroll : st.period - clock 0 % st.period = st.period
    · obtain ⟨k, hk, he⟩ := c3 htok hroll
      rw [he]
      rcases genTab_remaining st.digits st.period (clock k)
          { st.tabs.getD idx Tab.default with
            time_remaining := st.period - clock 0 % st.period } with hr | hr
      · exact ⟨0, hr⟩
      · exact ⟨k, hr⟩
    · rw [c2 htok hroll]
      exact ⟨0, rfl⟩
  · intro period now hp
    have := Nat.mod_lt now hp
    omega

def stW3 : TotpGenerator :=
  { tabs := [{ Tab.default with secret_key := "JBSWY3DPEHPK3PXP" }],
    active_tab := 0, digits := 6, period := 30 }

theorem spec_C3_witness :
    ((generateTokenAt 59 stW3 0).tabs.getD 0 Tab.default).time_remaining = 1 :=
  (spec_C3.1 stW3 59 0 (by decide) (by decide) (by decide) (by decide)).trans (by decide)

/-- C4: generating a token for an in-range session whose secret text is empty
sets the user-facing EmptySecret message and leaves the session with no code
(the stored token is empty); the handler is a total function, so no crash. -/
theorem spec_C4 :
    ∀ (st : TotpGenerator) (idx now : Nat), idx < st.tabs.length →
      (st.tabs.getD idx Tab.default).secret_key = "" →
      ((generateTokenAt now st idx).tabs.getD idx Tab.default).error
          = some "Please enter a secret key"
      ∧ ((generateTokenAt now st idx).tabs.getD idx Tab.default).token = "" := by
  intro st idx now h hs
  rw [generateTokenAt_getD_self now st idx h, genTab_empty _ _ _ _ hs]
  exact ⟨rfl, rfl⟩

theorem spec_C4_witness :
    ((generateTokenAt 7 TotpGenerator.default 0).tabs.getD 0 Tab.default).error
        = some "Please enter a secret key"
    ∧ ((generateTokenAt 7 TotpGenerator.default 0).tabs.getD 0 Tab.default).token = "" :=
  spec_C4 TotpGenerator.default 0 7 (by decide) (by decide)

theorem modTab_length (st : TotpGenerator) (i : Nat) (f : Tab → Tab) :
    (modTab st i f).tabs.length = st.tabs.length :=
  modifyNth_length f i st.tabs

theorem modTab_active (st : TotpGenerator) (i : Nat) (f : Tab → Tab) :
    (modTab st i f).active_tab = st.active_tab := rfl

theorem inv_of_same (st st' : TotpGenerator) (hL : st'.tabs.length = st.tabs.length)
    (hA : st'.active_tab = st.active_tab) (h : StoreInv st) : StoreInv st' := by
  unfold StoreInv at *
  rw [hL, hA]
  exact h

/-- Every message preserves the SessionStore invariant. -/
theorem update_inv (st : TotpGenerator) (msg : Message) (h : StoreInv st) :
    StoreInv (update st msg) := by
  cases msg with
  | secretKeyChanged value tab_index now =>
      simp only [update]
      split
      · split
        · exact inv_of_same st _
            (by rw [generateTokenAt_length, modTab_length])
            (by rw [generateTokenAt_active, modTab_active]) h
        · exact inv_of_same st _ (by rw [modTab_length, modTab_length]) rfl h
      · exact h
  | digitsChanged d => exact h
  | periodChanged p => exact h
  | generateTokenMsg now =>
      exact inv_of_same st _ (generateTokenAt_length _ _ _) (generateTokenAt_active _ _ _) h
  | copyToClipboard tab_index clip =>
      simp only [update]
      split
      · cases clip with
        | providerFail e => exact inv_of_same st _ (modTab_length _ _ _) rfl h
        | setFail e => exact inv_of_same st _ (modTab_length _ _ _) rfl h
        | copied => exact inv_of_same st _ (modTab_length _ _ _) rfl h
      · exact h
  | clearMessage tab_index =>
      simp only [update]
      split
      · exact inv_of_same st _ (modTab_length _ _ _) rfl h
      · exact h
  | tickMsg clock =>
      exact inv_of_same st _ (tickClock_length _ _) (tickClock_active _ _) h
  | addTab =>
      obtain ⟨hpos, hact⟩ := h
      refine ⟨?_, ?_⟩
      · show 0 < (st.tabs ++ [_]).length
        simp
      · show st.tabs.length < (st.tabs ++ [_]).length
        simp
  | removeTab idx =>
      obtain ⟨hpos, hact⟩ := h
      simp only [update]
      split
      · rename_i hg
        obtain ⟨h1, h2⟩ := hg
        have hl : (st.tabs.eraseIdx idx).length = st.tabs.length - 1 :=
          List.length_eraseIdx_of_lt h2
        refine ⟨?_, ?_⟩
        · show 0 < (st.tabs.eraseIdx idx).length
          omega
        · show (if (st.tabs.eraseIdx idx).length ≤ st.active_tab
              then (st.tabs.eraseIdx idx).length - 1 else st.active_tab)
            < (st.tabs.eraseIdx idx).length
          split <;> omega
      · exact ⟨hpos, hact⟩
  | selectTab idx =>
      simp only [update]
      split
      · rename_i hg
        exact ⟨h.1, hg⟩
      · exact h
  | renameTabStarted idx =>
      simp only [update]
      split
      · exact inv_of_same st _ (modTab_length _ _ _) rfl h
      · exact h
  | tabNameChanged nm idx =>
      simp only [update]
      split
      · exact inv_of_same st _ (modTab_length _ _ _) rfl h
      · exact h
  | tabNameConfirmed idx =>
      simp only [update]
      split
      · exact inv_of_same st _ (modTab_length _ _ _) rfl h
      · exact h

/-- C5: `RemoveTab` is a no-op out of range or at size one; otherwise it
erases the addressed tab and clamps a dangling active index to the new last
index, so removing the active tab at the last position leaves the active
index at the new last valid index. -/
theorem spec_C5 :
    ∀ (st : TotpGenerator) (idx : Nat),
      ((st.tabs.length ≤ 1 ∨ st.tabs.length ≤ idx) →
        update st (Message.removeTab idx) = st)
      ∧ (1 < st.tabs.length → idx < st.tabs.length →
          (update st (Message.removeTab idx)).tabs = st.tabs.eraseIdx idx
          ∧ (update st (Message.removeTab idx)).active_tab
            = (if st.tabs.length - 1 ≤ st.active_tab then st.tabs.length - 2
               else st.active_tab))
      ∧ (1 < st.tabs.length → st.active_tab = st.tabs.length - 1 →
          (update st (Message.removeTab st.active_tab)).active_tab
            = (update st (Message.removeTab st.active_tab)).tabs.length - 1) := by
  intro st idx
  refine ⟨?_, ?_, ?_⟩
  · intro h
    simp only [update]
    rw [if_neg (by omega)]
  · intro h1 h2
    simp only [update]
    rw [if_pos ⟨h1, h2⟩]
    have hl : (st.tabs.eraseIdx idx).length = st.tabs.length - 1 :=
      List.length_eraseIdx_of_lt h2
    refine ⟨rfl, ?_⟩
    show (if (st.tabs.eraseIdx idx).length ≤ st.active_tab
        then (st.tabs.eraseIdx idx).length - 1 else st.active_tab) = _
    rw [hl]
    by_cases hc : st.tabs.length - 1 ≤ st.active_tab
    · rw [if_pos hc, if_pos hc]
      omega
    · rw [if_neg hc, if_neg hc]
  · intro h1 hlast
    have h2 : st.active_tab < st.tabs.length := by omega
    simp only [update]
    rw [if_pos ⟨h1, h2⟩]
    have hl : (st.tabs.eraseIdx st.active_tab).length = st.tabs.length - 1 :=
      List.length_eraseIdx_of_lt h2
    show (if (st.tabs.eraseIdx st.active_tab).length ≤ st.active_tab
        then (st.tabs.eraseIdx st.active_tab).length - 1 else st.active_tab)
      = (st.tabs.eraseIdx st.active_tab).length - 1
    rw [hl, if_pos (by omega)]

def stW5 : TotpGenerator :=
  { tabs := [Tab.default, { Tab.default with name := "Tab 2" }],
    active_tab := 1, digits := 6, period := 30 }

theorem spec_C5_witness :
    (update stW5 (Message.removeTab stW5.active_tab)).active_tab
      = (update stW5 (Message.removeTab stW5.active_tab)).tabs.length - 1 :=
  (spec_C5 stW5 0).2.2 (by decide) (by decide)

/-- C6: from the initial one-tab state, every sequence of messages preserves
the invariant that the tab collection is non-empty and the active index is in
range; and every single message preserves it from any invariant state. -/
theorem spec_C6 :
    (∀ msgs : List Message, StoreInv (msgs.foldl update TotpGenerator.default))
    ∧ (∀ (st : TotpGenerator) (msg : Message), StoreInv st → StoreInv (update st msg)) := by
  have haux : ∀ (msgs : List Message) (st : TotpGenerator), StoreInv st →
      StoreInv (msgs.foldl update st) := by
    intro msgs
    induction msgs with
    | nil => intro st h; exact h
    | cons m ms ih =>
        intro st h
        exact ih _ (update_inv st m h)
  exact ⟨fun msgs => haux msgs TotpGenerator.default (by decide), update_inv⟩

theorem spec_C6_witness : StoreInv (update TotpGenerator.default Message.addTab) :=
  spec_C6.2 TotpGenerator.default Message.addTab (by decide)

/-- C10: a copy request addressed out of range or at a session with an empty
stored code leaves the whole state unchanged, for every possible behavior of
the clipboard collaborator (so no message is set and no clipboard interaction
can be observed). -/
theorem spec_C10 :
    ∀ (st : TotpGenerator) (idx : Nat) (clip : ClipEnv),
      (st.tabs.length ≤ idx ∨ (st.tabs.getD idx Tab.default).token = "") →
      update st (Message.copyToClipboard idx clip) = st := by
  intro st idx clip h
  have hneg : ¬(idx < st.tabs.length ∧ (st.tabs.getD idx Tab.default).token ≠ "") := by
    rintro ⟨hlt, htok⟩
    rcases h with h | h
    · omega
    · exact htok h
  simp only [update]
  rw [if_neg hneg]

theorem spec_C10_witness :
    update TotpGenerator.default (Message.copyToClipboard 0 ClipEnv.copied)
      = TotpGenerator.default :=
  spec_C10 TotpGenerator.default 0 ClipEnv.copied (Or.inr (by decide))

/-- C7: code derivation is deterministic in its inputs: with fixed digits and
period, two derivations at two times in the same time-step window store the
same code; and two sessions holding identical secret text, generated at the
same `now`, store identical codes (always) and identical countdowns (whenever
derivation succeeds, i.e. for a non-empty secret and an RFC-valid digit
count, the key length being guaranteed by the decoder). -/
theorem spec_C7 :
    (∀ (st : TotpGenerator) (idx n1 n2 : Nat), idx < st.tabs.length →
      n1 / st.period = n2 / st.period →
      ((generateTokenAt n1 st idx).tabs.getD idx Tab.default).token
        = ((generateTokenAt n2 st idx).tabs.getD idx Tab.default).token)
    ∧ (∀ (st : TotpGenerator) (i j now : Nat), i < st.tabs.length → j < st.tabs.length →
        (st.tabs.getD i Tab.default).secret_key = (st.tabs.getD j Tab.default).secret_key →
        (((generateTokenAt now (generateTokenAt now st i) j).tabs.getD i Tab.default).token
          = ((generateTokenAt now (generateTokenAt now st i) j).tabs.getD j Tab.default).token)
        ∧ ((st.tabs.getD i Tab.default).secret_key ≠ "" → 6 ≤ st.digits → st.digits ≤ 8 →
            ((generateTokenAt now (generateTokenAt now st i) j).tabs.getD i
                Tab.default).time_remaining
              = ((generateTokenAt now (generateTokenAt now st i) j).tabs.getD j
                  Tab.default).time_remaining)) := by
  refine ⟨?_, ?_⟩
  · intro st idx n1 n2 h hwin
    rw [generateTokenAt_getD_self n1 st idx h, generateTokenAt_getD_self n2 st idx h]
    exact genTab_token_window _ _ _ _ _ hwin
  · intro st i j now hi hj hsec
    by_cases hij : i = j
    · subst hij
      exact ⟨rfl, fun _ _ _ => rfl⟩
    · have hj1 : j < (generateTokenAt now st i).tabs.length := by
        rw [generateTokenAt_length]
        exact hj
      have e_i : (generateTokenAt now (generateTokenAt now st i) j).tabs.getD i Tab.default
          = genTab st.digits st.period now (st.tabs.getD i Tab.default) := by
        rw [generateTokenAt_getD_ne _ _ _ _ hij, generateTokenAt_getD_self now st i hi]
      have e_j : (generateTokenAt now (generateTokenAt now st i) j).tabs.getD j Tab.default
          = genTab st.digits st.period now (st.tabs.getD j Tab.default) := by
        rw [generateTokenAt_getD_self now _ j hj1, generateTokenAt_digits,
          generateTokenAt_period, generateTokenAt_getD_ne now st i j (Ne.symm hij)]
      refine ⟨?_, ?_⟩
      · rw [e_i, e_j]
        exact genTab_token_eq _ _ _ _ _ hsec
      · intro hs h6 h8
        rw [e_i, e_j, genTab_success _ _ _ _ hs h6 h8,
          genTab_success _ _ _ _ (by rw [← hsec]; exact hs) h6 h8]

def stW7 : TotpGenerator :=
  { tabs := [{ Tab.default with secret_key := "JBSWY3DPEHPK3PXP" }],
    active_tab := 0, digits := 6, period := 30 }

theorem spec_C7_witness :
    ((generateTokenAt 59 stW7 0).tabs.getD 0 Tab.default).token
      = ((generateTokenAt 45 stW7 0).tabs.getD 0 Tab.default).token :=
  spec_C7.1 stW7 0 59 45 (by decide) (by decide)

/-- C9: one tick leaves sessions with an empty code entirely untouched; a
session with a non-empty code whose freshly computed remaining time does not
equal the full period only has its countdown refreshed, its stored code
unchanged; and exactly the rolled-over sessions are regenerated (by
`generate_token` at one of the tick's clock reads). -/
theorem spec_C9 :
    ∀ (st : TotpGenerator) (clock : Nat → Nat) (idx : Nat), idx < st.tabs.length →
      ((st.tabs.getD idx Tab.default).token = "" →
        (tickClock st clock).tabs.getD idx Tab.default = st.tabs.getD idx Tab.default)
      ∧ ((st.tabs.getD idx Tab.default).token ≠ "" →
          st.period - clock 0 % st.period ≠ st.period →
          ((tickClock st clock).tabs.getD idx Tab.default).token
            = (st.tabs.getD idx Tab.default).token
          ∧ ((tickClock st clock).tabs.getD idx Tab.default).time_remaining
            = st.period - clock 0 % st.period)
      ∧ ((st.tabs.getD idx Tab.default).token ≠ "" →
          st.period - clock 0 % st.period = st.period →
          ∃ k, 1 ≤ k ∧ (tickClock st clock).tabs.getD idx Tab.default
            = genTab st.digits st.period (clock k)
                { st.tabs.getD idx Tab.default with
                  time_remaining := st.period - clock 0 % st.period }) := by
  intro st clock idx h
  obtain ⟨c1, c2, c3⟩ := tickClock_getD st clock idx h
  refine ⟨c1, ?_, c3⟩
  intro htok hroll
  rw [c2 htok hroll]
  exact ⟨rfl, rfl⟩

def stW9 : TotpGenerator :=
  { tabs := [Tab.default,
      { Tab.default with secret_key := "JBSWY3DPEHPK3PXP", token := "123456" }],
    active_tab := 0, digits := 6, period := 30 }

theorem spec_C9_witness :
    (tickClock stW9 (fun _ => 7)).tabs.getD 0 Tab.default = stW9.tabs.getD 0 Tab.default
    ∧ ((tickClock stW9 (fun _ => 7)).tabs.getD 1 Tab.default).token
        = (stW9.tabs.getD 1 Tab.default).token :=
  ⟨(spec_C9 stW9 (fun _ => 7) 0 (by decide)).1 (by decide),
    ((spec_C9 stW9 (fun _ => 7) 1 (by decide)).2.1 (by decide) (by decide)).1⟩

/-! ## C8: the shared-`now`-snapshot claim

The first pass of a tick uses a single clock read, but each `generate_token`
call of the second pass performs its own `SystemTime::now()`; if the clock
advances between those reads, a regenerated session stores a countdown
computed from a later `now` than the others. -/

def stC8 : TotpGenerator :=
  { tabs := [{ Tab.default with secret_key := "JBSWY3DPEHPK3PXP", token := "A" },
      { Tab.default with name := "Tab 2", secret_key := "JBSWY3DPEHPK3PXP", token := "B" }],
    active_tab := 0, digits := 6, period := 30 }

/-- A clock trace whose third read (the second regeneration) is one second
later than the tick's first read. -/
def clockC8 : Nat → Nat := fun i => if i = 2 then 1 else 0

def tabC8a : Tab :=
  { name := "New Tab", secret_key := "JBSWY3DPEHPK3PXP", token := "A",
    error := none, time_remaining := 30, editing_name := true }

def tabC8b : Tab :=
  { name := "Tab 2", secret_key := "JBSWY3DPEHPK3PXP", token := "B",
    error := none, time_remaining := 30, editing_name := true }

/-- C8 counterexample: after this tick both sessions hold non-empty codes, but
their stored countdowns (30 and 29) cannot both be `period - now % period` for
any single `now`: no common snapshot exists. -/
theorem spec_C8_cex :
    ¬ ∃ now : Nat, ∀ idx : Nat, idx < (tickClock stC8 clockC8).tabs.length →
        ((tickClock stC8 clockC8).tabs.getD idx Tab.default).token ≠ "" →
        ((tickClock stC8 clockC8).tabs.getD idx Tab.default).time_remaining
          = stC8.period - now % stC8.period := by
  have e0 : (tickClock stC8 clockC8).tabs.getD 0 Tab.default = genTab 6 30 0 tabC8a := by
    rfl
  have e1 : (tickClock stC8 clockC8).tabs.getD 1 Tab.default = genTab 6 30 1 tabC8b := by
    rfl
  have r0 : ((tickClock stC8 clockC8).tabs.getD 0 Tab.default).time_remaining = 30 := by
    rw [e0, genTab_success 6 30 0 tabC8a (by decide) (by decide) (by decide)]
  have r1 : ((tickClock stC8 clockC8).tabs.getD 1 Tab.default).time_remaining = 29 := by
    rw [e1, genTab_success 6 30 1 tabC8b (by decide) (by decide) (by decide)]
  have t0 : ((tickClock stC8 clockC8).tabs.getD 0 Tab.default).token ≠ "" := by
    rw [e0, genTab_success 6 30 0 tabC8a (by decide) (by decide) (by decide)]
    exact generate_ne_empty _ _ (by decide)
  have t1 : ((tickClock stC8 clockC8).tabs.getD 1 Tab.default).token ≠ "" := by
    rw [e1, genTab_success 6 30 1 tabC8b (by decide) (by decide) (by decide)]
    exact generate_ne_empty _ _ (by decide)
  rintro ⟨now, hall⟩
  have h0 := hall 0 (by rw [tickClock_length]; decide) t0
  have h1 := hall 1 (by rw [tickClock_length]; decide) t1
  rw [r0] at h0
  rw [r1] at h1
  have hp : stC8.period = 30 := rfl
  rw [hp] at h0 h1
  omega

/-- C8 (amended): within one tick, all first-pass countdown refreshes use the
tick's single clock read, and a session regenerated in the second pass gets
its countdown from its own `generate_token`-time clock read; consequently,
whenever all clock reads of the tick return the same value (the clock does
not advance while the tick is processed), every session that held a non-empty
code ends the tick with a countdown computed from that common `now`. -/
theorem spec_C8 :
    ∀ (st : TotpGenerator) (clock : Nat → Nat) (idx : Nat),
      (∀ i j : Nat, clock i = clock j) → idx < st.tabs.length →
      (st.tabs.getD idx Tab.default).token ≠ "" →
      ((tickClock st clock).tabs.getD idx Tab.default).time_remaining
        = st.period - clock 0 % st.period := by
  intro st clock idx hconst h htok
  obtain ⟨c1, c2, c3⟩ := tickClock_getD st clock idx h
  by_cases hroll : st.period - clock 0 % st.period = st.period
  · obtain ⟨k, hk, he⟩ := c3 htok hroll
    rw [he]
    rcases genTab_remaining st.digits st.period (clock k)
        { st.tabs.getD idx Tab.default with
          time_remaining := st.period - clock 0 % st.period } with hr | hr
    · exact hr
    · rw [hr, hconst k 0]
  · rw [c2 htok hroll]

def stW8 : TotpGenerator :=
  { tabs := [{ Tab.default with secret_key := "JBSWY3DPEHPK3PXP", token := "123456" }],
    active_tab := 0, digits := 6, period := 30 }

theorem spec_C8_witness :
    ((tickClock stW8 (fun _ => 59)).tabs.getD 0 Tab.default).time_remaining = 1 :=
  (spec_C8 stW8 (fun _ => 59) 0 (fun _ _ => rfl) (by decide) (by decide)).trans (by decide)
